import Mathlib

/-!
Shallow embedding of the livesport-crawler match-state engine
(`src/main.rs`) and proofs about it.

Rust strings are modelled as `List Char`; Rust `Option`/`Result` become
Lean `Option`/`Except`; `u32`/`u64` parsing is modelled with the exact
accepted grammar (optional leading `+`, one or more ASCII digits, bounded
by the bit width).  A `panic!`/`assert!` in the Rust code is modelled by
an `Option` result being `none`.
-/

namespace Livesport

abbrev Str := List Char

/-- Rust `str::split_once(sep)`: split at the first occurrence of `sep`,
returning `none` when `sep` does not occur. -/
def splitOnceChar (sep : Char) : Str → Option (Str × Str)
  | [] => none
  | c :: t =>
    if c = sep then some ([], t)
    else
      match splitOnceChar sep t with
      | some (a, b) => some (c :: a, b)
      | none => none

/-- Rust `str::split(sep)` collected into a list of fragments; always
non-empty (an empty string yields one empty fragment). -/
def splitChar (sep : Char) : Str → List Str
  | [] => [[]]
  | c :: t =>
    if c = sep then [] :: splitChar sep t
    else
      match splitChar sep t with
      | [] => [[c]]
      | h :: r => (c :: h) :: r

/-- Value of a non-empty all-ASCII-digit string, `none` otherwise. -/
def parseNatDigits (s : Str) : Option Nat :=
  if s.isEmpty then none
  else if s.all Char.isDigit then
    some (s.foldl (fun a c => a * 10 + (c.toNat - 48)) 0)
  else none

/-- Rust `uN::from_str`: optional leading `+`, then one or more ASCII
digits, failing on overflow at bit width `w`. -/
def parseUInt (w : Nat) (s : Str) : Option Nat :=
  let body := if s.head? = some '+' then s.tail else s
  match parseNatDigits body with
  | some v => if v < 2 ^ w then some v else none
  | none => none

def parseU32 (s : Str) : Option Nat := parseUInt 32 s

def parseU64 (s : Str) : Option Nat := parseUInt 64 s

/-! ### Calendar model (chrono `NaiveDate` / `NaiveTime` / `NaiveDateTime`) -/

structure NaiveTime where
  hour : Nat
  minute : Nat
  second : Nat
  deriving Repr, DecidableEq

structure NaiveDate where
  year : Int
  month : Nat
  day : Nat
  deriving Repr, DecidableEq

structure NaiveDateTime where
  date : NaiveDate
  time : NaiveTime
  deriving Repr, DecidableEq

/-- chrono leap-year rule (proleptic Gregorian). -/
def isLeapYear (y : Int) : Bool :=
  y % 4 == 0 && (y % 100 != 0 || y % 400 == 0)

def daysInMonth (y : Int) (m : Nat) : Nat :=
  if m = 2 then (if isLeapYear y then 29 else 28)
  else if m = 4 ∨ m = 6 ∨ m = 9 ∨ m = 11 then 30
  else 31

/-- chrono's representable year range for `NaiveDate`. -/
def yearInRange (y : Int) : Prop := -262144 ≤ y ∧ y ≤ 262143

instance (y : Int) : Decidable (yearInRange y) := by
  unfold yearInRange; infer_instance

/-- chrono `NaiveDate::from_ymd_opt`: `some` exactly on valid proleptic
Gregorian dates within the representable year range. -/
def from_ymd_opt (y : Int) (m d : Nat) : Option NaiveDate :=
  if yearInRange y ∧ 1 ≤ m ∧ m ≤ 12 ∧ 1 ≤ d ∧ d ≤ daysInMonth y m then
    some ⟨y, m, d⟩
  else none

/-- chrono `NaiveTime::from_hms_opt`. -/
def from_hms_opt (h m s : Nat) : Option NaiveTime :=
  if h < 24 ∧ m < 60 ∧ s < 60 then some ⟨h, m, s⟩ else none

/-- Days since 1970-01-01 of a civil date (Hinnant's algorithm, the
conversion underlying chrono's day arithmetic). -/
def civilToDays (y : Int) (m d : Nat) : Int :=
  let y' : Int := if m ≤ 2 then y - 1 else y
  let era : Int := Int.fdiv y' 400
  let yoe : Int := y' - era * 400
  let mi : Int := (m : Int)
  let doy : Int := Int.fdiv (153 * (if 2 < m then mi - 3 else mi + 9) + 2) 5 + (d : Int) - 1
  let doe : Int := yoe * 365 + Int.fdiv yoe 4 - Int.fdiv yoe 100 + doy
  era * 146097 + doe - 719468

def NaiveDate.toDays (d : NaiveDate) : Int := civilToDays d.year d.month d.day

/-- Seconds since the epoch; differences of `toSecs` are exactly chrono's
`NaiveDateTime` subtraction in seconds, and comparing `toSecs` is chrono's
chronological `Ord` on valid date-times. -/
def NaiveDateTime.toSecs (dt : NaiveDateTime) : Int :=
  dt.date.toDays * 86400 + (dt.time.hour : Int) * 3600 +
    (dt.time.minute : Int) * 60 + (dt.time.second : Int)

/-! ### DateTime Normalizer (`parse_datetime`) -/

/-- The `parse_time` closure inside `parse_datetime`: split at the first
colon, parse both sides as `u32`, build an `HH:MM:00` time. -/
def parse_time (time : Str) : Option NaiveTime :=
  match splitOnceChar ':' time with
  | none => none
  | some (h, m) =>
    match parseU32 h, parseU32 m with
    | some hv, some mv => from_hms_opt hv mv 0
    | _, _ => none

/-- The `parse_date` closure inside `parse_datetime`: split on dots, read
day from the first fragment and month from the second, take the year from
the current local date. -/
def parse_date (year : Int) (date : Str) : Option NaiveDate :=
  let date_parts := splitChar '.' date
  match date_parts.head? with
  | none => none
  | some day =>
    match date_parts.get? 1 with
    | none => none
    | some month =>
      match parseU32 month, parseU32 day with
      | some mv, some dv => from_ymd_opt year mv dv
      | _, _ => none

/-- `parse_datetime` from `src/main.rs`, with the ambient `Local::now()`
calendar date passed explicitly as `today`. -/
def parse_datetime (today : NaiveDate) (value : Str) : Option NaiveDateTime :=
  match splitOnceChar ' ' value with
  | some (date, time) =>
    match parse_date today.year date, parse_time time with
    | some d, some t => some ⟨d, t⟩
    | _, _ => none
  | none =>
    match parse_time value with
    | some t => some ⟨today, t⟩
    | none => none

/-! ### Match Phase Classifier (`get_minute_of_game`) -/

/-- `GameTime` from `src/main.rs`. -/
inductive GameTime where
  | WillBePlayed : Option (Nat × Nat) → GameTime
  | Played : GameTime
  | BreakAfter : Nat → GameTime
  | Playing : Nat → GameTime
  deriving Repr, DecidableEq

def PERIOD_MINUTES : Nat := 20

/-- Rust `text.strip_suffix(APOSTROPHE).unwrap_or(&text)`: drop a single
trailing minute-marker apostrophe when present. -/
def stripMinuteMark (s : Str) : Str :=
  match s.getLast? with
  | some c => if c = Char.ofNat 39 then s.dropLast else s
  | none => s

/-- One `.event__part--home` period marker: `some text` if the text read
succeeded, `none` if it failed; `is_ok_and(|t| !t.is_empty())` decides
whether the period counts as completed. -/
def isCompletedPeriod (p : Option Str) : Bool :=
  match p with
  | some t => !t.isEmpty
  | none => false

/-- `get_minute_of_game` from `src/main.rs`.  `event_parts` are the text
reads of the `.event__part--home` elements; `eventTime` is the
`.eventTime` element (`none` = element not found) together with its text
read (`none` = read failed, contributing 0 via `map_or`).  The
`assert!(periods >= 1)` panic is modelled by the result `none`. -/
def get_minute_of_game (event_parts : List (Option Str))
    (eventTime : Option (Option Str)) : Option GameTime :=
  let periods := event_parts.countP isCompletedPeriod
  if 1 ≤ periods then
    let minute := PERIOD_MINUTES * (periods - 1)
    match eventTime with
    | some txt =>
      let elapsed :=
        match txt with
        | some t => (parseU64 (stripMinuteMark t)).getD 0
        | none => 0
      some (GameTime.Playing (minute + elapsed))
    | none => some (GameTime.BreakAfter (minute + PERIOD_MINUTES))
  else none

/-! ### Resilient Element Locator (`get_latest_match_element`) -/

/-- The retry loop of `get_latest_match_element`: `q i` is the outcome of
the `find_all(".event__match")` query on attempt `i` (elements are opaque
handles, modelled as `Nat`); an `Except.error` propagates via `?`. -/
def locate_loop (q : Nat → Except Unit (List Nat)) :
    Nat → Nat → Except Unit (Option Nat)
  | _, 0 => Except.ok none
  | i, fuel + 1 =>
    match q i with
    | Except.error e => Except.error e
    | Except.ok rows =>
      match rows with
      | [] => locate_loop q (i + 1) fuel
      | r :: _ => Except.ok (some r)

/-- `get_latest_match_element` from `src/main.rs`: up to 10 attempts,
returning the first element of the first non-empty query result, or
`Ok(None)` when the attempt budget is exhausted. -/
def get_latest_match_element (q : Nat → Except Unit (List Nat)) :
    Except Unit (Option Nat) :=
  locate_loop q 0 10

/-! ### Snapshot Extractor (`get_score`) -/

/-- Rust `str::contains(needle)` for a string needle. -/
def strContains (hay needle : Str) : Bool :=
  if needle.isPrefixOf hay then true
  else
    match hay with
    | [] => false
    | _ :: t => strContains t needle

/-- `GameResult` from `src/main.rs` (the `generated` wall-clock stamp is
the `now` the caller passes in). -/
structure GameResult where
  my_team : Str
  my_team_score : Nat
  opponent_team : Str
  opponent_team_score : Nat
  game_time : GameTime
  generated : NaiveDateTime
  deriving Repr, DecidableEq

/-- The DOM reads `get_score` performs on the located `.event__match`
row, as plain data: each `Option Str` field is `none` when the element /
attribute is absent (the team-name and score reads are modelled as having
succeeded, the only case the claims need). -/
structure MatchRow where
  home_team : Str
  away_team : Str
  home_score_text : Str
  away_score_text : Str
  class_attr : Option Str
  event_time_text : Option Str
  event_parts : List (Option Str)
  eventTime : Option (Option Str)
  deriving Repr, DecidableEq

/-- The `event_time` computation in `get_score`: when the `.event__time`
element exists, its text must `parse_datetime` (a failure propagates via
`?`, modelled as outer `none`); a past or current kick-off gives
`(0, 0)`, a future one the truncated hour/minute split of the difference
to `now`. -/
def compute_event_time (now : NaiveDateTime) (event_time_text : Option Str) :
    Option (Option (Nat × Nat)) :=
  match event_time_text with
  | none => some none
  | some txt =>
    match parse_datetime now.date txt with
    | none => none
    | some mdt =>
      if mdt.toSecs < now.toSecs then some (some (0, 0))
      else
        let delta := (mdt.toSecs - now.toSecs).toNat
        some (some (delta / 3600, delta / 60 % 60))

/-- `get_score` from `src/main.rs`, restricted to its pure core: the
navigation, waiting and DOM reads are summarised by the `MatchRow` data
and the ambient local time `now`.  `none` models an early `?`/`ok_or`
return of `Err`. -/
def get_score (now : NaiveDateTime) (row : MatchRow) (team_name : Str) :
    Option GameResult :=
  let home_score := (parseU64 row.home_score_text).getD 0
  let away_score := (parseU64 row.away_score_text).getD 0
  match row.class_attr with
  | none => none
  | some last_match_class =>
    match compute_event_time now row.event_time_text with
    | none => none
    | some event_time =>
      let game_time :=
        if strContains last_match_class "event__match--live".toList then
          get_minute_of_game row.event_parts row.eventTime
        else if strContains last_match_class "event__match--scheduled".toList then
          some (GameTime.WillBePlayed event_time)
        else
          some GameTime.Played
      match game_time with
      | none => none
      | some game_time =>
        if team_name.isPrefixOf row.home_team then
          some ⟨row.home_team, home_score, row.away_team, away_score, game_time, now⟩
        else
          some ⟨row.away_team, away_score, row.home_team, home_score, game_time, now⟩

/-! ### Poll Loop (`main`) -/

/-- What one iteration of the `loop` in `main` observes: the
`get_score` outcome, and — when it succeeded — whether the Ctrl-C signal
wins the `select!` race at the wait point. -/
inductive CycleOutcome where
  | success : Bool → CycleOutcome
  | failure : CycleOutcome
  deriving Repr, DecidableEq

/-- The `loop` in `main` over a finite trace of per-cycle outcomes:
`some code` means the loop has exited with `break code`, `none` means the
trace ran out with the loop still running. -/
def run_loop : List CycleOutcome → Option Nat
  | [] => none
  | CycleOutcome.failure :: _ => some 1
  | CycleOutcome.success true :: _ => some 0
  | CycleOutcome.success false :: rest => run_loop rest

/-! ### Helper lemmas about the string primitives -/

lemma splitOnceChar_of_not_mem (sep : Char) (s : Str) (h : sep ∉ s) :
    splitOnceChar sep s = none := by
  induction s with
  | nil => rfl
  | cons c t ih =>
    have hc : ¬ c = sep := by
      intro hc; exact h (hc ▸ List.mem_cons_self c t)
    have ht : sep ∉ t := fun hm => h (List.mem_cons_of_mem c hm)
    simp [splitOnceChar, hc, ih ht]

lemma splitOnceChar_append (sep : Char) (a b : Str) (h : sep ∉ a) :
    splitOnceChar sep (a ++ sep :: b) = some (a, b) := by
  induction a with
  | nil => simp [splitOnceChar]
  | cons c t ih =>
    have hc : ¬ c = sep := by
      intro hc; exact h (hc ▸ List.mem_cons_self c t)
    have ht : sep ∉ t := fun hm => h (List.mem_cons_of_mem c hm)
    simp [splitOnceChar, hc, ih ht]

lemma splitChar_of_not_mem (sep : Char) (s : Str) (h : sep ∉ s) :
    splitChar sep s = [s] := by
  induction s with
  | nil => rfl
  | cons c t ih =>
    have hc : ¬ c = sep := by
      intro hc; exact h (hc ▸ List.mem_cons_self c t)
    have ht : sep ∉ t := fun hm => h (List.mem_cons_of_mem c hm)
    simp [splitChar, hc, ih ht]

lemma splitChar_append (sep : Char) (a b : Str) (h : sep ∉ a) :
    splitChar sep (a ++ sep :: b) = a :: splitChar sep b := by
  induction a with
  | nil => simp [splitChar]
  | cons c t ih =>
    have hc : ¬ c = sep := by
      intro hc; exact h (hc ▸ List.mem_cons_self c t)
    have ht : sep ∉ t := fun hm => h (List.mem_cons_of_mem c hm)
    simp only [List.cons_append, splitChar, hc, if_false]
    rw [List.append_eq, ih ht]

lemma parseNatDigits_chars {s : Str} {n : Nat} (h : parseNatDigits s = some n) :
    ∀ c ∈ s, c.isDigit := by
  unfold parseNatDigits at h
  split_ifs at h with h1 h2
  · exact fun c hc => (List.all_eq_true.mp h2) c hc

lemma parseUInt_chars {w : Nat} {s : Str} {n : Nat} (h : parseUInt w s = some n) :
    ∀ c ∈ s, c = '+' ∨ c.isDigit := by
  unfold parseUInt at h
  by_cases hh : s.head? = some '+'
  · rcases s with _ | ⟨c0, t⟩
    · simp at hh
    · have hc0 : c0 = '+' := by simpa using hh
      simp only [hh, if_true, List.tail_cons] at h
      intro c hc
      rcases List.mem_cons.mp hc with h1 | h1
      · exact Or.inl (h1.trans hc0)
      · cases hv : parseNatDigits t with
        | none => rw [hv] at h; exact absurd h (by simp)
        | some v => exact Or.inr (parseNatDigits_chars hv c h1)
  · simp only [hh, if_false] at h
    intro c hc
    cases hv : parseNatDigits s with
    | none => rw [hv] at h; exact absurd h (by simp)
    | some v => exact Or.inr (parseNatDigits_chars hv c hc)

lemma not_mem_of_parseUInt {w : Nat} {s : Str} {n : Nat}
    (h : parseUInt w s = some n) (c : Char)
    (hplus : c ≠ '+') (hdig : ¬ c.isDigit) : c ∉ s := by
  intro hc
  rcases parseUInt_chars h c hc with h1 | h1
  · exact hplus h1
  · exact hdig h1

lemma not_mem_append_cons {c x : Char} {a b : Str}
    (ha : c ∉ a) (hx : c ≠ x) (hb : c ∉ b) : c ∉ a ++ x :: b := by
  intro hmem
  rcases List.mem_append.mp hmem with h1 | h1
  · exact ha h1
  · rcases List.mem_cons.mp h1 with h1 | h1
    · exact hx h1
    · exact hb h1

lemma parse_time_valid {hs ms : Str} {h m : Nat}
    (hh : parseU32 hs = some h) (hm : parseU32 ms = some m)
    (h24 : h < 24) (m60 : m < 60) :
    parse_time (hs ++ ':' :: ms) = some ⟨h, m, 0⟩ := by
  have hcol : ':' ∉ hs := not_mem_of_parseUInt hh ':' (by decide) (by decide)
  simp only [parse_time, splitOnceChar_append _ _ _ hcol, hh, hm, from_hms_opt]
  rw [if_pos ⟨h24, m60, by norm_num⟩]

/-- C3: for every valid `"HH:MM"` input, `parse_datetime` returns the
current local calendar date (`today`) with time `HH:MM:00`; for every
valid `"DD.MM HH:MM"` input, it returns the current local year with
month `MM`, day `DD` and time `HH:MM:00`. -/
theorem C3_parse_datetime_valid_forms (today : NaiveDate)
    (hs ms ds mos : Str) (h m d mo : Nat)
    (hh : parseU32 hs = some h) (hm : parseU32 ms = some m)
    (h24 : h < 24) (m60 : m < 60) :
    parse_datetime today (hs ++ ':' :: ms) = some ⟨today, ⟨h, m, 0⟩⟩ ∧
    (parseU32 ds = some d → parseU32 mos = some mo →
      from_ymd_opt today.year mo d = some ⟨today.year, mo, d⟩ →
      parse_datetime today ((ds ++ '.' :: mos) ++ ' ' :: (hs ++ ':' :: ms)) =
        some ⟨⟨today.year, mo, d⟩, ⟨h, m, 0⟩⟩) := by
  have hsp_hs : ' ' ∉ hs := not_mem_of_parseUInt hh ' ' (by decide) (by decide)
  have hsp_ms : ' ' ∉ ms := not_mem_of_parseUInt hm ' ' (by decide) (by decide)
  have ht := parse_time_valid hh hm h24 m60
  constructor
  · have hval : ' ' ∉ hs ++ ':' :: ms :=
      not_mem_append_cons hsp_hs (by decide) hsp_ms
    simp only [parse_datetime, splitOnceChar_of_not_mem _ _ hval, ht]
  · intro hd hmo hymd
    have hds_dot : '.' ∉ ds := not_mem_of_parseUInt hd '.' (by decide) (by decide)
    have hmos_dot : '.' ∉ mos := not_mem_of_parseUInt hmo '.' (by decide) (by decide)
    have hds_sp : ' ' ∉ ds := not_mem_of_parseUInt hd ' ' (by decide) (by decide)
    have hmos_sp : ' ' ∉ mos := not_mem_of_parseUInt hmo ' ' (by decide) (by decide)
    have hdate_sp : ' ' ∉ ds ++ '.' :: mos :=
      not_mem_append_cons hds_sp (by decide) hmos_sp
    have hpd : parse_date today.year (ds ++ '.' :: mos) = some ⟨today.year, mo, d⟩ := by
      simp only [parse_date, splitChar_append _ _ _ hds_dot,
        splitChar_of_not_mem _ _ hmos_dot, List.head?_cons, List.get?, hd, hmo, hymd]
    unfold parse_datetime
    rw [splitOnceChar_append _ _ _ hdate_sp]
    simp only [hpd, ht]

/-- Witness for C3: `"18:00"` with today = 2024-09-07 parses to
2024-09-07 18:00:00, and `"07.09 18:00"` parses to 2024-09-07 18:00:00. -/
theorem C3_parse_datetime_valid_forms_witness :
    parse_datetime ⟨2024, 9, 7⟩ ("18".toList ++ ':' :: "00".toList) =
      some ⟨⟨2024, 9, 7⟩, ⟨18, 0, 0⟩⟩ ∧
    parse_datetime ⟨2024, 9, 7⟩
        (("07".toList ++ '.' :: "09".toList) ++ ' ' :: ("18".toList ++ ':' :: "00".toList)) =
      some ⟨⟨2024, 9, 7⟩, ⟨18, 0, 0⟩⟩ := by
  have H := C3_parse_datetime_valid_forms ⟨2024, 9, 7⟩
    "18".toList "00".toList "07".toList "09".toList 18 0 7 9
    (by decide) (by decide) (by decide) (by decide)
  exact ⟨H.1, H.2 (by decide) (by decide) (by decide)⟩

/-- C9: `parse_datetime` is a total function into `Option` (it never
crashes, by construction of the embedding), and it returns `none` when:
the time part has no colon, a date part given with a space has no dot,
the hour does not parse as an integer, the parsed hour/minute is not a
valid time of day, or the parsed day/month is not a valid calendar date
in the current year. -/
theorem C9_parse_datetime_failure_cases (today : NaiveDate)
    (s hs ms ds mos t : Str) (h m d mo : Nat) :
    (' ' ∉ s → ':' ∉ s → parse_datetime today s = none) ∧
    ('.' ∉ ds → ' ' ∉ ds → parse_datetime today (ds ++ ' ' :: t) = none) ∧
    (' ' ∉ hs → ' ' ∉ ms → ':' ∉ hs → parseU32 hs = none →
      parse_datetime today (hs ++ ':' :: ms) = none) ∧
    (parseU32 hs = some h → parseU32 ms = some m → 24 ≤ h ∨ 60 ≤ m →
      parse_datetime today (hs ++ ':' :: ms) = none) ∧
    (parseU32 ds = some d → parseU32 mos = some mo →
      from_ymd_opt today.year mo d = none →
      parse_datetime today ((ds ++ '.' :: mos) ++ ' ' :: t) = none) := by
  refine ⟨?_, ?_, ?_, ?_, ?_⟩
  · intro hsp hcol
    simp only [parse_datetime, splitOnceChar_of_not_mem _ _ hsp, parse_time,
      splitOnceChar_of_not_mem _ _ hcol]
  · intro hdot hsp
    have hpd : parse_date today.year ds = none := by
      unfold parse_date
      rw [splitChar_of_not_mem _ _ hdot]
      rfl
    simp only [parse_datetime, splitOnceChar_append _ _ _ hsp, hpd]
  · intro hsp_hs hsp_ms hcol hfail
    have hval : ' ' ∉ hs ++ ':' :: ms :=
      not_mem_append_cons hsp_hs (by decide) hsp_ms
    simp only [parse_datetime, splitOnceChar_of_not_mem _ _ hval, parse_time,
      splitOnceChar_append _ _ _ hcol, hfail]
  · intro hh hm hbad
    have hsp_hs : ' ' ∉ hs := not_mem_of_parseUInt hh ' ' (by decide) (by decide)
    have hsp_ms : ' ' ∉ ms := not_mem_of_parseUInt hm ' ' (by decide) (by decide)
    have hcol : ':' ∉ hs := not_mem_of_parseUInt hh ':' (by decide) (by decide)
    have hval : ' ' ∉ hs ++ ':' :: ms :=
      not_mem_append_cons hsp_hs (by decide) hsp_ms
    have hfalse : ¬(h < 24 ∧ m < 60 ∧ 0 < 60) := by
      rintro ⟨hlt24, hlt60, _⟩
      rcases hbad with hb | hb
      · exact absurd hlt24 (not_lt.mpr hb)
      · exact absurd hlt60 (not_lt.mpr hb)
    simp only [parse_datetime, splitOnceChar_of_not_mem _ _ hval, parse_time,
      splitOnceChar_append _ _ _ hcol, hh, hm, from_hms_opt, if_neg hfalse]
  · intro hd hmo hbad
    have hds_dot : '.' ∉ ds := not_mem_of_parseUInt hd '.' (by decide) (by decide)
    have hmos_dot : '.' ∉ mos := not_mem_of_parseUInt hmo '.' (by decide) (by decide)
    have hds_sp : ' ' ∉ ds := not_mem_of_parseUInt hd ' ' (by decide) (by decide)
    have hmos_sp : ' ' ∉ mos := not_mem_of_parseUInt hmo ' ' (by decide) (by decide)
    have hdate_sp : ' ' ∉ ds ++ '.' :: mos :=
      not_mem_append_cons hds_sp (by decide) hmos_sp
    have hpd : parse_date today.year (ds ++ '.' :: mos) = none := by
      unfold parse_date
      rw [splitChar_append _ _ _ hds_dot, splitChar_of_not_mem _ _ hmos_dot]
      simp only [List.head?_cons, List.get?, hd, hmo, hbad]
    simp only [parse_datetime, splitOnceChar_append _ _ _ hdate_sp, hpd]

/-- Witness for C9: `"1800"`, `"0709 18:00"`, `"xx:00"`, `"25:00"` and
`"32.13 18:00"` all fail to parse. -/
theorem C9_parse_datetime_failure_cases_witness :
    parse_datetime ⟨2024, 1, 1⟩ "1800".toList = none ∧
    parse_datetime ⟨2024, 1, 1⟩ ("0709".toList ++ ' ' :: "18:00".toList) = none ∧
    parse_datetime ⟨2024, 1, 1⟩ ("xx".toList ++ ':' :: "00".toList) = none ∧
    parse_datetime ⟨2024, 1, 1⟩ ("25".toList ++ ':' :: "00".toList) = none ∧
    parse_datetime ⟨2024, 1, 1⟩
      (("32".toList ++ '.' :: "13".toList) ++ ' ' :: "18:00".toList) = none := by
  have H := fun hs ms ds mos t h m d mo =>
    C9_parse_datetime_failure_cases ⟨2024, 1, 1⟩ "1800".toList hs ms ds mos t h m d mo
  exact ⟨(H [] [] [] [] [] 0 0 0 0).1 (by decide) (by decide),
    (H [] [] "0709".toList [] "18:00".toList 0 0 0 0).2.1 (by decide) (by decide),
    (H "xx".toList "00".toList [] [] [] 0 0 0 0).2.2.1
      (by decide) (by decide) (by decide) (by decide),
    (H "25".toList "00".toList [] [] [] 25 0 0 0).2.2.2.1
      (by decide) (by decide) (Or.inl (by decide)),
    (H [] [] "32".toList "13".toList "18:00".toList 0 0 32 13).2.2.2.2
      (by decide) (by decide) (by decide)⟩

/-- C10: the date grammar is wider than `"DD.MM"`: any date part with two
or more dot-separated components parses from the first two alone, and
everything after the second component — a trailing dot, an explicit year,
anything without a space — is silently ignored. -/
theorem C10_extra_date_components_ignored (today : NaiveDate)
    (ds mos rest t : Str) (d mo : Nat) (tt : NaiveTime)
    (hd : parseU32 ds = some d) (hmo : parseU32 mos = some mo)
    (hrest : ' ' ∉ rest)
    (hymd : from_ymd_opt today.year mo d = some ⟨today.year, mo, d⟩)
    (ht : parse_time t = some tt) :
    parse_datetime today ((ds ++ '.' :: (mos ++ '.' :: rest)) ++ ' ' :: t) =
      some ⟨⟨today.year, mo, d⟩, tt⟩ := by
  have hds_dot : '.' ∉ ds := not_mem_of_parseUInt hd '.' (by decide) (by decide)
  have hmos_dot : '.' ∉ mos := not_mem_of_parseUInt hmo '.' (by decide) (by decide)
  have hds_sp : ' ' ∉ ds := not_mem_of_parseUInt hd ' ' (by decide) (by decide)
  have hmos_sp : ' ' ∉ mos := not_mem_of_parseUInt hmo ' ' (by decide) (by decide)
  have hdate_sp : ' ' ∉ ds ++ '.' :: (mos ++ '.' :: rest) :=
    not_mem_append_cons hds_sp (by decide)
      (not_mem_append_cons hmos_sp (by decide) hrest)
  have hpd : parse_date today.year (ds ++ '.' :: (mos ++ '.' :: rest)) =
      some ⟨today.year, mo, d⟩ := by
    unfold parse_date
    rw [splitChar_append _ _ _ hds_dot, splitChar_append _ _ _ hmos_dot]
    simp only [List.head?_cons, List.get?, hd, hmo, hymd]
  simp only [parse_datetime, splitOnceChar_append _ _ _ hdate_sp, hpd, ht]

/-- Witness for C10: `"07.09.2023 18:00"` and `"07.09. 18:00"` both parse
in year 2024 to 2024-09-07 18:00:00, ignoring the third component. -/
theorem C10_extra_date_components_ignored_witness :
    parse_datetime ⟨2024, 1, 1⟩
      (("07".toList ++ '.' :: ("09".toList ++ '.' :: "2023".toList)) ++
        ' ' :: "18:00".toList) = some ⟨⟨2024, 9, 7⟩, ⟨18, 0, 0⟩⟩ ∧
    parse_datetime ⟨2024, 1, 1⟩
      (("07".toList ++ '.' :: ("09".toList ++ '.' :: [])) ++
        ' ' :: "18:00".toList) = some ⟨⟨2024, 9, 7⟩, ⟨18, 0, 0⟩⟩ := by
  exact ⟨C10_extra_date_components_ignored ⟨2024, 1, 1⟩
      "07".toList "09".toList "2023".toList "18:00".toList 7 9 ⟨18, 0, 0⟩
      (by decide) (by decide) (by decide) (by decide) (by decide),
    C10_extra_date_components_ignored ⟨2024, 1, 1⟩
      "07".toList "09".toList [] "18:00".toList 7 9 ⟨18, 0, 0⟩
      (by decide) (by decide) (by decide) (by decide) (by decide)⟩

/-! ### Claims about the Match Phase Classifier -/

/-- C1 counterexample: with 2 completed periods (base minute 20) and an
elapsed fragment `"abc"` that is present but does not parse as an
integer, the classifier returns `Playing 20` (minute defaulted to 0 by
`unwrap_or_default`), not `Break` with minute `20 + 20 = 40` as the
claim's "otherwise" case states. -/
theorem C1_counterexample_unparseable_fragment :
    get_minute_of_game [some "1".toList, some "1".toList]
        (some (some "abc".toList)) = some (GameTime.Playing 20) ∧
    some (GameTime.Playing 20) ≠ some (GameTime.BreakAfter 40) := by
  decide

/-- C1 amended: with p ≥ 1 completed periods (base = (p − 1) × 20), a
present elapsed fragment always yields `Live`: minute base + n when the
stripped fragment parses as n, and minute base + 0 when it does not
parse; `Break` with minute base + 20 arises exactly when the fragment
element is absent.  In particular 1 period with no fragment gives
`Break 20` and 2 periods with fragment `"5"` give `Live 25`. -/
theorem C1_amended_live_fragment_rules (event_parts : List (Option Str))
    (txt : Str) (n : Nat)
    (hp : 1 ≤ event_parts.countP isCompletedPeriod) :
    (parseU64 (stripMinuteMark txt) = some n →
      get_minute_of_game event_parts (some (some txt)) =
        some (GameTime.Playing
          (PERIOD_MINUTES * (event_parts.countP isCompletedPeriod - 1) + n))) ∧
    (parseU64 (stripMinuteMark txt) = none →
      get_minute_of_game event_parts (some (some txt)) =
        some (GameTime.Playing
          (PERIOD_MINUTES * (event_parts.countP isCompletedPeriod - 1)))) ∧
    get_minute_of_game event_parts none =
      some (GameTime.BreakAfter
        (PERIOD_MINUTES * (event_parts.countP isCompletedPeriod - 1) +
          PERIOD_MINUTES)) := by
  refine ⟨?_, ?_, ?_⟩
  · intro hparse
    simp only [get_minute_of_game, if_pos hp, hparse, Option.getD_some]
  · intro hparse
    simp only [get_minute_of_game, if_pos hp, hparse, Option.getD_none, Nat.add_zero]
  · simp only [get_minute_of_game, if_pos hp]

/-- Witness for C1 amended: 1 completed period and no fragment yields
`Break 20`; 2 completed periods and fragment `"5"` yield `Live 25`. -/
theorem C1_amended_live_fragment_rules_witness :
    get_minute_of_game [some "1".toList] none = some (GameTime.BreakAfter 20) ∧
    get_minute_of_game [some "1".toList, some "1".toList]
      (some (some "5".toList)) = some (GameTime.Playing 25) := by
  exact ⟨(C1_amended_live_fragment_rules [some "1".toList] [] 0
      (by decide)).2.2,
    (C1_amended_live_fragment_rules [some "1".toList, some "1".toList]
      "5".toList 5 (by decide)).1 (by decide)⟩

/-- C2: a live match with zero completed periods (every period-marker
text empty or unreadable) makes the classifier fail loudly (the
`assert!(periods >= 1)` panic, modelled as `none`); it never returns a
phase with a defaulted minute. -/
theorem C2_zero_periods_fails
    (event_parts : List (Option Str)) (eventTime : Option (Option Str))
    (h : ∀ p ∈ event_parts, ∀ t, p = some t → t = []) :
    get_minute_of_game event_parts eventTime = none := by
  have hcount : event_parts.countP isCompletedPeriod = 0 := by
    rw [List.countP_eq_zero]
    intro p hp
    cases p with
    | none => decide
    | some t =>
      rw [h (some t) hp t rfl]
      decide
  simp only [get_minute_of_game, hcount]
  rfl

/-- Witness for C2: one empty marker text and one failed read give no
completed periods, so the classifier fails even with a fragment there. -/
theorem C2_zero_periods_fails_witness :
    get_minute_of_game [some [], none] (some (some "5".toList)) = none := by
  exact C2_zero_periods_fails [some [], none] (some (some "5".toList))
    (by intro p hp t hpt
        rcases List.mem_cons.mp hp with h1 | h1
        · rw [h1] at hpt; exact (Option.some.inj hpt).symm
        · rcases List.mem_cons.mp h1 with h2 | h2
          · rw [h2] at hpt; exact absurd hpt (by simp)
          · exact absurd h2 (by simp))

/-! ### Claims about the Resilient Element Locator -/

lemma locate_loop_all_empty (q : Nat → Except Unit (List Nat)) :
    ∀ fuel i, (∀ j, j < fuel → q (i + j) = Except.ok []) →
      locate_loop q i fuel = Except.ok none := by
  intro fuel
  induction fuel with
  | zero => intro i _; rfl
  | succ f ih =>
    intro i hall
    have h0 : q i = Except.ok [] := by
      have := hall 0 (Nat.succ_pos f)
      rwa [Nat.add_zero] at this
    simp only [locate_loop, h0]
    exact ih (i + 1) (fun j hj => by
      have := hall (j + 1) (Nat.succ_lt_succ hj)
      rw [Nat.add_right_comm]
      rwa [← Nat.add_assoc] at this)

lemma locate_loop_found (q : Nat → Except Unit (List Nat)) (x : Nat)
    (rest : List Nat) :
    ∀ k fuel i, k < fuel → (∀ j, j < k → q (i + j) = Except.ok []) →
      q (i + k) = Except.ok (x :: rest) →
      locate_loop q i fuel = Except.ok (some x) := by
  intro k
  induction k with
  | zero =>
    intro fuel i hk _ hfound
    rcases fuel with _ | f
    · exact absurd hk (Nat.lt_irrefl 0)
    · rw [Nat.add_zero] at hfound
      simp only [locate_loop, hfound]
  | succ k ih =>
    intro fuel i hk hempty hfound
    rcases fuel with _ | f
    · exact absurd hk (Nat.not_lt_zero _)
    · have h0 : q i = Except.ok [] := by
        have := hempty 0 (Nat.succ_pos k)
        rwa [Nat.add_zero] at this
      simp only [locate_loop, h0]
      exact ih f (i + 1) (Nat.lt_of_succ_lt_succ hk)
        (fun j hj => by
          have := hempty (j + 1) (Nat.succ_lt_succ hj)
          rw [Nat.add_right_comm]
          rwa [← Nat.add_assoc] at this)
        (by rw [Nat.add_right_comm]
            rwa [← Nat.add_assoc] at hfound)

/-- C8: if the find-all query succeeds with an empty result on every
attempt before `k` and is non-empty on attempt `k < 10`, the locator
returns the first element of attempt `k` (the remaining attempts do not
influence the outcome); if every one of the 10 attempts yields an empty
result, it returns `Ok(None)` — "not found" as a normal, non-error
outcome. -/
theorem C8_locator_first_hit_or_none (q : Nat → Except Unit (List Nat))
    (k x : Nat) (rest : List Nat) :
    (k < 10 → (∀ j, j < k → q j = Except.ok []) →
      q k = Except.ok (x :: rest) →
      get_latest_match_element q = Except.ok (some x)) ∧
    ((∀ j, j < 10 → q j = Except.ok []) →
      get_latest_match_element q = Except.ok none) := by
  constructor
  · intro hk hempty hfound
    exact locate_loop_found q x rest k 10 0 hk
      (fun j hj => by rw [Nat.zero_add]; exact hempty j hj)
      (by rwa [Nat.zero_add])
  · intro hall
    exact locate_loop_all_empty q 10 0
      (fun j hj => by rw [Nat.zero_add]; exact hall j hj)

/-- Witness for C8: a query that is empty on attempts 0 and 1 and yields
`[7, 8]` on attempt 2 locates element 7; an always-empty query yields the
non-error "not found". -/
theorem C8_locator_first_hit_or_none_witness :
    get_latest_match_element
      (fun i => if i < 2 then Except.ok [] else Except.ok [7, 8]) =
      Except.ok (some 7) ∧
    get_latest_match_element (fun _ => Except.ok ([] : List Nat)) =
      Except.ok none := by
  constructor
  · exact (C8_locator_first_hit_or_none
      (fun i => if i < 2 then Except.ok [] else Except.ok [7, 8]) 2 7 [8]).1
      (by norm_num)
      (fun j hj => by simp [hj])
      (by norm_num)
  · exact (C8_locator_first_hit_or_none (fun _ => Except.ok []) 0 0 []).2
      (fun j _ => rfl)

/-! ### Claims about the Poll Loop -/

/-- C6 counterexample: a trace consisting of a single extraction failure
— with no cancellation signal anywhere — makes the loop exit with code 1,
so the loop does not remain `Running` after a failure and cancellation is
not the only way it stops. -/
theorem C6_counterexample_failure_exits :
    run_loop [CycleOutcome.failure] = some 1 ∧
    run_loop [CycleOutcome.failure] ≠ none := by
  decide

/-- C6 amended: the loop exits with code 1 at the first extraction
failure, exits with code 0 when the cancellation signal wins the wait
race, and only remains `Running` (ticking again) after a successful cycle
with no cancellation. -/
theorem C6_amended_loop_transitions (rest : List CycleOutcome) :
    run_loop [] = none ∧
    run_loop (CycleOutcome.failure :: rest) = some 1 ∧
    run_loop (CycleOutcome.success true :: rest) = some 0 ∧
    run_loop (CycleOutcome.success false :: rest) = run_loop rest := by
  exact ⟨rfl, rfl, rfl, rfl⟩

/-! ### Claims about the Snapshot Extractor (`get_score`) -/

/-- C4 counterexample: a scheduled match whose `.event__time` text is
present but unparseable (`"garbage"`) makes `get_score` fail (the `?` on
`parse_datetime` aborts the cycle); the claim's `Scheduled{None}` outcome
does not happen. -/
theorem C4_counterexample_parse_failure_aborts :
    get_score ⟨⟨2024, 9, 7⟩, ⟨15, 45, 0⟩⟩
      ⟨"Alpha".toList, "Beta".toList, "2".toList, "1".toList,
       some "event__match--scheduled".toList, some "garbage".toList, [], none⟩
      "Alpha".toList = none := by
  decide

/-- C4 amended: on a scheduled match, `time_until = None` arises exactly
when the `.event__time` element is absent; when the element is present
but its text fails to parse, `get_score` aborts the whole cycle with an
error instead of producing `Scheduled{None}`. -/
theorem C4_amended_kickoff_parse_abort (now : NaiveDateTime) (row : MatchRow)
    (team cls : Str)
    (hcls : row.class_attr = some cls)
    (hlive : strContains cls "event__match--live".toList = false)
    (hsched : strContains cls "event__match--scheduled".toList = true) :
    (row.event_time_text = none →
      ∃ r, get_score now row team = some r ∧
        r.game_time = GameTime.WillBePlayed none) ∧
    (∀ txt, row.event_time_text = some txt →
      parse_datetime now.date txt = none →
      get_score now row team = none) := by
  constructor
  · intro hnone
    simp only [get_score, hcls, compute_event_time, hnone, hlive, hsched,
      Bool.false_eq_true, if_false, if_true]
    split_ifs
    · exact ⟨_, rfl, rfl⟩
    · exact ⟨_, rfl, rfl⟩
  · intro txt htxt hparse
    simp only [get_score, hcls, compute_event_time, htxt, hparse]

/-- Witness for C4 amended: a scheduled row with no kick-off element
produces a snapshot whose phase is `Scheduled` with `time_until = None`. -/
theorem C4_amended_kickoff_parse_abort_witness :
    ∃ r, get_score ⟨⟨2024, 9, 7⟩, ⟨15, 45, 0⟩⟩
      ⟨"Alpha".toList, "Beta".toList, "2".toList, "1".toList,
       some "event__match--scheduled".toList, none, [], none⟩
      "Alpha".toList = some r ∧
      r.game_time = GameTime.WillBePlayed none := by
  exact (C4_amended_kickoff_parse_abort ⟨⟨2024, 9, 7⟩, ⟨15, 45, 0⟩⟩
    ⟨"Alpha".toList, "Beta".toList, "2".toList, "1".toList,
     some "event__match--scheduled".toList, none, [], none⟩
    "Alpha".toList "event__match--scheduled".toList
    rfl (by decide) (by decide)).1 rfl

/-- C5: on a scheduled match whose kick-off text parses to instant `t`:
if `t` is not after `now` the phase carries `time_until = Some((0,0))`;
if `t` is after `now` it carries `Some((h, m))` with `h` the whole hours
and `m` the remaining minutes (total minutes mod 60) of `t − now`. -/
theorem C5_scheduled_time_until (now : NaiveDateTime) (row : MatchRow)
    (team cls txt : Str) (t : NaiveDateTime)
    (hcls : row.class_attr = some cls)
    (hlive : strContains cls "event__match--live".toList = false)
    (hsched : strContains cls "event__match--scheduled".toList = true)
    (htxt : row.event_time_text = some txt)
    (hparse : parse_datetime now.date txt = some t) :
    ∃ r, get_score now row team = some r ∧
      r.game_time = GameTime.WillBePlayed (some (
        if t.toSecs ≤ now.toSecs then (0, 0)
        else ((t.toSecs - now.toSecs).toNat / 3600,
              (t.toSecs - now.toSecs).toNat / 60 % 60))) := by
  have hev : compute_event_time now row.event_time_text = some (some (
      if t.toSecs ≤ now.toSecs then (0, 0)
      else ((t.toSecs - now.toSecs).toNat / 3600,
            (t.toSecs - now.toSecs).toNat / 60 % 60))) := by
    simp only [compute_event_time, htxt, hparse]
    rcases lt_trichotomy t.toSecs now.toSecs with hlt | heq | hgt
    · rw [if_pos hlt, if_pos (le_of_lt hlt)]
    · rw [if_neg (not_lt.mpr (le_of_eq heq.symm)), if_pos (le_of_eq heq), heq]
      simp
    · rw [if_neg (not_lt.mpr (le_of_lt hgt)), if_neg (not_le.mpr hgt)]
  simp only [get_score, hcls, hev, hlive, hsched, Bool.false_eq_true,
    if_false, if_true]
  split_ifs
  all_goals exact ⟨_, rfl, rfl⟩

/-- Witness for C5: with `now` = 2024-09-07 15:45 and kick-off text
`"18:00"` (2 hours 15 minutes ahead), the phase is
`Scheduled{ Some((2, 15)) }`. -/
theorem C5_scheduled_time_until_witness :
    ∃ r, get_score ⟨⟨2024, 9, 7⟩, ⟨15, 45, 0⟩⟩
      ⟨"Alpha".toList, "Beta".toList, "2".toList, "1".toList,
       some "event__match--scheduled".toList, some "18:00".toList, [], none⟩
      "Alpha".toList = some r ∧
      r.game_time = GameTime.WillBePlayed (some (2, 15)) := by
  obtain ⟨r, hr, hg⟩ := C5_scheduled_time_until ⟨⟨2024, 9, 7⟩, ⟨15, 45, 0⟩⟩
    ⟨"Alpha".toList, "Beta".toList, "2".toList, "1".toList,
     some "event__match--scheduled".toList, some "18:00".toList, [], none⟩
    "Alpha".toList "event__match--scheduled".toList "18:00".toList
    ⟨⟨2024, 9, 7⟩, ⟨18, 0, 0⟩⟩ rfl (by decide) (by decide) rfl (by decide)
  refine ⟨r, hr, ?_⟩
  rw [hg]
  decide

/-- C7 counterexample: with home team `"Alpha"`, away team `"Beta"` and
configured name `"Gamma"` matching neither, `get_score` silently produces
a snapshot with the away team in the "my team" role — no error is
surfaced. -/
theorem C7_counterexample_no_match_no_error :
    (get_score ⟨⟨2024, 9, 7⟩, ⟨15, 45, 0⟩⟩
      ⟨"Alpha".toList, "Beta".toList, "2".toList, "1".toList,
       some "event__match--live".toList, none, [some "1".toList],
       some (some "10".toList)⟩
      "Gamma".toList).map (fun r => (r.my_team, r.opponent_team)) =
      some ("Beta".toList, "Alpha".toList) := by
  decide

/-- C7 amended: "my team" is the home team exactly when the configured
name is a case-sensitive prefix of the home name; in every other case —
including when neither scraped name matches — the away team is silently
designated "my team" and no error is surfaced.  The two roles always
receive the two scraped teams, one each. -/
theorem C7_amended_team_assignment (now : NaiveDateTime) (row : MatchRow)
    (team cls : Str) (et : Option (Nat × Nat))
    (hcls : row.class_attr = some cls)
    (hev : compute_event_time now row.event_time_text = some et)
    (hgt : strContains cls "event__match--live".toList = true →
      get_minute_of_game row.event_parts row.eventTime ≠ none) :
    ∃ r, get_score now row team = some r ∧
      (team.isPrefixOf row.home_team = true →
        r.my_team = row.home_team ∧ r.opponent_team = row.away_team) ∧
      (team.isPrefixOf row.home_team = false →
        r.my_team = row.away_team ∧ r.opponent_team = row.home_team) := by
  have hfin : ∀ g : GameTime,
      (∃ r, (if team.isPrefixOf row.home_team = true then
          some (⟨row.home_team, (parseU64 row.home_score_text).getD 0,
            row.away_team, (parseU64 row.away_score_text).getD 0, g, now⟩ : GameResult)
        else
          some ⟨row.away_team, (parseU64 row.away_score_text).getD 0,
            row.home_team, (parseU64 row.home_score_text).getD 0, g, now⟩) = some r ∧
        (team.isPrefixOf row.home_team = true →
          r.my_team = row.home_team ∧ r.opponent_team = row.away_team) ∧
        (team.isPrefixOf row.home_team = false →
          r.my_team = row.away_team ∧ r.opponent_team = row.home_team)) := by
    intro g
    by_cases hpre : team.isPrefixOf row.home_team = true
    · rw [if_pos hpre]
      exact ⟨_, rfl, fun _ => ⟨rfl, rfl⟩,
        fun hf => by rw [hf] at hpre; exact absurd hpre Bool.false_ne_true⟩
    · rw [if_neg hpre]
      exact ⟨_, rfl, fun ht => absurd ht hpre, fun _ => ⟨rfl, rfl⟩⟩
  by_cases hlive : strContains cls "event__match--live".toList = true
  · obtain ⟨g, hg⟩ : ∃ g, get_minute_of_game row.event_parts row.eventTime = some g := by
      cases hx : get_minute_of_game row.event_parts row.eventTime with
      | none => exact absurd hx (hgt hlive)
      | some g => exact ⟨g, rfl⟩
    simp only [get_score, hcls, hev, hlive, if_true, hg]
    exact hfin g
  · rw [Bool.not_eq_true] at hlive
    by_cases hsched : strContains cls "event__match--scheduled".toList = true
    · simp only [get_score, hcls, hev, hlive, Bool.false_eq_true, if_false,
        hsched, if_true]
      exact hfin (GameTime.WillBePlayed et)
    · rw [Bool.not_eq_true] at hsched
      simp only [get_score, hcls, hev, hlive, hsched, Bool.false_eq_true,
        if_false]
      exact hfin GameTime.Played

/-- Witness for C7 amended: configured name `"Gamma"` matches neither
`"Alpha"` (home) nor `"Beta"` (away); the snapshot is still produced,
with `"Beta"` as "my team". -/
theorem C7_amended_team_assignment_witness :
    ∃ r, get_score ⟨⟨2024, 9, 7⟩, ⟨15, 45, 0⟩⟩
      ⟨"Alpha".toList, "Beta".toList, "2".toList, "1".toList,
       some "event__match--live".toList, none, [some "1".toList],
       some (some "10".toList)⟩
      "Gamma".toList = some r ∧
      r.my_team = "Beta".toList ∧ r.opponent_team = "Alpha".toList := by
  obtain ⟨r, hr, _, hno⟩ := C7_amended_team_assignment
    ⟨⟨2024, 9, 7⟩, ⟨15, 45, 0⟩⟩
    ⟨"Alpha".toList, "Beta".toList, "2".toList, "1".toList,
     some "event__match--live".toList, none, [some "1".toList],
     some (some "10".toList)⟩
    "Gamma".toList "event__match--live".toList none
    rfl rfl (fun _ => by decide)
  exact ⟨r, hr, hno (by decide)⟩

end Livesport

